import Mathlib

/-!
Shallow embedding of the core of `ts_backend.py` (tailscale_tui): geo
heuristics, quality classification, topology edge construction, line
rasterization, and the rolling bandwidth / ping metrics stores.

Python floats are modelled as rationals, Python ints as `Int`/`Nat`,
`None`-able values as `Option`, and Python dictionaries whose keys are
strings as functions `String → Option _` (or total functions with a
default).  External effects (subprocess output, OS counters, wall-clock
time) are modelled as explicit inputs to the state-transition functions.
-/

namespace TsBackend

/-! ## String helpers (Python `str` operations) -/

/-- Models Python `str.lower` on a single character (inputs of interest are
ASCII, where `str.lower` is exactly ASCII lowercasing). -/
def pyLowerChar (c : Char) : Char :=
  if 'A' ≤ c ∧ c ≤ 'Z' then Char.ofNat (c.toNat + 32) else c

/-- Models Python `s.lower()` on the character list of a string. -/
def pyLower (s : List Char) : List Char := s.map pyLowerChar

/-- Models Python `pat in s` (substring containment). -/
def containsSub (pat : List Char) : List Char → Bool
  | [] => pat.isPrefixOf []
  | c :: rest => pat.isPrefixOf (c :: rest) || containsSub pat rest

/-- Models Python `s.split(":")[0]`: the characters before the first colon. -/
def splitColonHead (s : String) : String :=
  ⟨s.toList.takeWhile (fun c => c ≠ ':')⟩

/-! ## Data model: locations (the 7-key location dictionaries) -/

/-- The location record: the 7-key dictionary built by the geo resolvers in
`ts_backend.py`.  Every resolver produces a value for every key, so a
Python `dict.update` with a resolver result replaces the whole record. -/
structure Location where
  city : String
  country : String
  country_code : String
  region : String
  latitude : Option ℚ
  longitude : Option ℚ
  timezone : String
deriving DecidableEq

/-- The all-sentinel location record used as the base by every resolver. -/
def unknownLocation : Location :=
  { city := "Unknown", country := "Unknown", country_code := "??",
    region := "Unknown", latitude := none, longitude := none,
    timezone := "Unknown" }

/-- City/country/country_code/region payload of one relay-table entry. -/
structure CityRec where
  city : String
  country : String
  country_code : String
  region : String
deriving DecidableEq

/-- The `location_mapping` table of `parse_relay_location`, in source
(insertion) order; first matching code wins. -/
def relayLocationMapping : List (List Char × CityRec) :=
  [ ("nyc".toList, ⟨"New York", "United States", "US", "North America"⟩),
    ("sfo".toList, ⟨"San Francisco", "United States", "US", "North America"⟩),
    ("sea".toList, ⟨"Seattle", "United States", "US", "North America"⟩),
    ("dal".toList, ⟨"Dallas", "United States", "US", "North America"⟩),
    ("chi".toList, ⟨"Chicago", "United States", "US", "North America"⟩),
    ("mia".toList, ⟨"Miami", "United States", "US", "North America"⟩),
    ("den".toList, ⟨"Denver", "United States", "US", "North America"⟩),
    ("tor".toList, ⟨"Toronto", "Canada", "CA", "North America"⟩),
    ("lhr".toList, ⟨"London", "United Kingdom", "GB", "Europe"⟩),
    ("fra".toList, ⟨"Frankfurt", "Germany", "DE", "Europe"⟩),
    ("ams".toList, ⟨"Amsterdam", "Netherlands", "NL", "Europe"⟩),
    ("par".toList, ⟨"Paris", "France", "FR", "Europe"⟩),
    ("mad".toList, ⟨"Madrid", "Spain", "ES", "Europe"⟩),
    ("mil".toList, ⟨"Milan", "Italy", "IT", "Europe"⟩),
    ("sto".toList, ⟨"Stockholm", "Sweden", "SE", "Europe"⟩),
    ("war".toList, ⟨"Warsaw", "Poland", "PL", "Europe"⟩),
    ("nrt".toList, ⟨"Tokyo", "Japan", "JP", "Asia Pacific"⟩),
    ("hkg".toList, ⟨"Hong Kong", "Hong Kong", "HK", "Asia Pacific"⟩),
    ("sin".toList, ⟨"Singapore", "Singapore", "SG", "Asia Pacific"⟩),
    ("syd".toList, ⟨"Sydney", "Australia", "AU", "Asia Pacific"⟩),
    ("blr".toList, ⟨"Bangalore", "India", "IN", "Asia Pacific"⟩),
    ("icn".toList, ⟨"Seoul", "South Korea", "KR", "Asia Pacific"⟩),
    ("sao".toList, ⟨"S√£o Paulo", "Brazil", "BR", "South America"⟩),
    ("jnb".toList, ⟨"Johannesburg", "South Africa", "ZA", "Africa"⟩),
    ("dxb".toList, ⟨"Dubai", "UAE", "AE", "Middle East"⟩) ]

/-- Embeds `parse_relay_location`: the first table code that is a substring
of the lowercased relay name determines a full location record (the Python
function returns a complete 7-key dictionary in both branches). -/
def parse_relay_location (relay : String) : Location :=
  let relay_lower := pyLower relay.toList
  match relayLocationMapping.find? (fun e => containsSub e.1 relay_lower) with
  | some e =>
      { city := e.2.city, country := e.2.country,
        country_code := e.2.country_code, region := e.2.region,
        latitude := none, longitude := none, timezone := "Unknown" }
  | none => unknownLocation

/-- A partial location update: the per-pattern dictionaries of
`parse_hostname_location` carry only some of the keys, so applying one via
`dict.update` only touches the present keys. -/
structure LocPatch where
  city : Option String := none
  country : Option String := none
  country_code : Option String := none
  region : Option String := none
deriving DecidableEq

/-- Models `location_info.update(location)` for a partial pattern entry. -/
def applyLocPatch (u : LocPatch) (loc : Location) : Location :=
  { loc with
    city := u.city.getD loc.city,
    country := u.country.getD loc.country,
    country_code := u.country_code.getD loc.country_code,
    region := u.region.getD loc.region }

/-- The `location_patterns` table of `parse_hostname_location`, in source
(insertion) order; the Python loop applies the first match and breaks. -/
def hostnamePatterns : List (List Char × LocPatch) :=
  [ ("nyc".toList, { city := some "New York", country := some "United States", country_code := some "US" }),
    ("sf".toList, { city := some "San Francisco", country := some "United States", country_code := some "US" }),
    ("la".toList, { city := some "Los Angeles", country := some "United States", country_code := some "US" }),
    ("london".toList, { city := some "London", country := some "United Kingdom", country_code := some "GB" }),
    ("paris".toList, { city := some "Paris", country := some "France", country_code := some "FR" }),
    ("tokyo".toList, { city := some "Tokyo", country := some "Japan", country_code := some "JP" }),
    ("sydney".toList, { city := some "Sydney", country := some "Australia", country_code := some "AU" }),
    ("usa".toList, { country := some "United States", country_code := some "US", region := some "North America" }),
    ("canada".toList, { country := some "Canada", country_code := some "CA", region := some "North America" }),
    ("uk".toList, { country := some "United Kingdom", country_code := some "GB", region := some "Europe" }),
    ("germany".toList, { country := some "Germany", country_code := some "DE", region := some "Europe" }),
    ("france".toList, { country := some "France", country_code := some "FR", region := some "Europe" }),
    ("japan".toList, { country := some "Japan", country_code := some "JP", region := some "Asia Pacific" }),
    ("australia".toList, { country := some "Australia", country_code := some "AU", region := some "Asia Pacific" }) ]

/-- Embeds `parse_hostname_location`: starts from the all-sentinel record
and applies the first matching pattern (the loop breaks after one match). -/
def parse_hostname_location (hostname : String) : Location :=
  let hostname_lower := pyLower hostname.toList
  match hostnamePatterns.find? (fun e => containsSub e.1 hostname_lower) with
  | some e => applyLocPatch e.2 unknownLocation
  | none => unknownLocation

/-- The record `geolocate_ip` produces for addresses it recognizes: the
all-sentinel base updated with `city/country/country_code/region`. -/
def localNetworkLocation : Location :=
  { city := "Local Network", country := "Private", country_code := "LAN",
    region := "Local", latitude := none, longitude := none,
    timezone := "Unknown" }

/-- Embeds `geolocate_ip`: classifies by the literal string prefix tests
`ip.startswith("192.168.")`, `ip.startswith("10.")`, `ip.startswith("172.")`. -/
def geolocate_ip (ip : String) : Location :=
  if "192.168.".toList.isPrefixOf ip.toList
      || "10.".toList.isPrefixOf ip.toList
      || "172.".toList.isPrefixOf ip.toList then
    localNetworkLocation
  else
    unknownLocation

/-! ## Data model: peers -/

/-- The slice of a peer record that the location / topology code reads:
`Relay`/`relay`, `Endpoints`/`endpoints`, `HostName`/`hostname`, `Online`.
(The raw status dictionary and the derived `peer_data` dictionary carry
the same values under differently-cased keys.) -/
structure Peer where
  hostName : String
  relay : String
  endpoints : List String
  online : Bool
deriving DecidableEq

/-- Embeds `get_peer_location`: sentinel base, then the relay resolver
(when a relay name is present), then the endpoint-IP resolver (only when
no relay is present and at least one endpoint exists, inspecting the first
endpoint), then the hostname resolver (only when it yields a non-Unknown
country).  Each resolver returns a complete 7-key dictionary, so each
`dict.update` replaces the whole record. -/
def get_peer_location (peer : Peer) : Location :=
  let li := unknownLocation
  let li := if peer.relay ≠ "" then parse_relay_location peer.relay else li
  let li :=
    match peer.endpoints with
    | [] => li
    | fe :: _ =>
        if peer.relay = "" then
          if fe.toList.contains ':' then geolocate_ip (splitColonHead fe) else li
        else li
  let hostname_location := parse_hostname_location peer.hostName
  if hostname_location.country ≠ "Unknown" then hostname_location else li

/-! ## Quality classification and topology edges -/

/-- Embeds `get_connection_quality`: fixed latency thresholds, `None` means
no latency value. -/
def get_connection_quality (latency : Option ℚ) : String :=
  match latency with
  | none => "unknown"
  | some l =>
      if l < 20 then "excellent"
      else if l < 50 then "good"
      else if l < 100 then "fair"
      else "poor"

/-- Embeds `get_connection_type`: Python truthiness of the `relay` string
and the `endpoints` list. -/
def get_connection_type (peer : Peer) : String :=
  if peer.relay ≠ "" then "relay"
  else if peer.endpoints ≠ [] then "direct"
  else "unknown"

/-- Models Python truthiness of an `Optional[float]`: `None` and `0.0` are
falsy, every other float is truthy. -/
def pyTruthyFloat : Option ℚ → Bool
  | none => false
  | some x => x ≠ 0

/-- One measured edge of the topology graph (the per-peer dictionary built
inside the `get_network_topology` loop). -/
structure Connection where
  source : String
  target : String
  status : String
  latency : Option ℚ
  connection_type : String
  quality : String
deriving DecidableEq

/-- Embeds the edge construction in the body of the `get_network_topology`
loop; `success` and `latency` are the result of the external latency
probe (`ping_with_latency`).  Note the quality guard is the Python
truthiness test `if latency`, not an `is not None` test. -/
def mkPeerConnection (selfHostname : String) (peer : Peer) (success : Bool)
    (latency : Option ℚ) : Connection :=
  { source := selfHostname,
    target := peer.hostName,
    status := if success then "connected" else "unreachable",
    latency := latency,
    connection_type := get_connection_type peer,
    quality := if pyTruthyFloat latency then get_connection_quality latency
               else "unknown" }

/-- Embeds the `get_network_topology` connection loop: one keyed edge per
online peer, keyed by source and target hostname; `probes` pairs each peer
with its external probe result. -/
def buildConnections (selfHostname : String)
    (probes : List (Peer × Bool × Option ℚ)) : List (String × Connection) :=
  probes.filterMap (fun x =>
    if x.1.online then
      some (selfHostname ++ "->" ++ x.1.hostName,
            mkPeerConnection selfHostname x.1 x.2.1 x.2.2)
    else none)

/-! ## Line rasterization (`draw_line`) -/

/-- Writes one canvas cell: `canvas[y][x] = c` guarded by the bounds check
and the check-before-write test `canvas[y][x] == ' '` of `draw_line`. -/
def tryDrawCell (canvas : List (List Char)) (x y : ℤ) (c : Char)
    (width height : ℤ) : List (List Char) :=
  if 0 ≤ x ∧ x < width ∧ 0 ≤ y ∧ y < height
      ∧ (canvas.getD y.toNat []).getD x.toNat ' ' = ' ' then
    canvas.set y.toNat ((canvas.getD y.toNat []).set x.toNat c)
  else canvas

/-- The `dx > dy` loop of `draw_line`.  The Python loop `while x != x2`
moves `x` one step toward `x2` per iteration, so it runs exactly
`|x2 - x1| = dx` times; the fuel argument is instantiated with `dx`.
The error accumulator is a Python float whose value is always a multiple
of one half, modelled exactly as a rational. -/
def drawLoopX (c : Char) (width height sx sy dx dy : ℤ) :
    ℕ → List (List Char) → ℤ → ℤ → ℚ → List (List Char)
  | 0, canvas, _, _, _ => canvas
  | n + 1, canvas, x, y, err =>
      let canvas := tryDrawCell canvas x y c width height
      let err := err - (dy : ℚ)
      let y' := if err < 0 then y + sy else y
      let err' := if err < 0 then err + (dx : ℚ) else err
      drawLoopX c width height sx sy dx dy n canvas (x + sx) y' err'

/-- The `dx ≤ dy` loop of `draw_line` (stepping in `y`), fuel `dy`. -/
def drawLoopY (c : Char) (width height sx sy dx dy : ℤ) :
    ℕ → List (List Char) → ℤ → ℤ → ℚ → List (List Char)
  | 0, canvas, _, _, _ => canvas
  | n + 1, canvas, x, y, err =>
      let canvas := tryDrawCell canvas x y c width height
      let err := err - (dx : ℚ)
      let x' := if err < 0 then x + sx else x
      let err' := if err < 0 then err + (dy : ℚ) else err
      drawLoopY c width height sx sy dx dy n canvas x' (y + sy) err'

/-- Embeds `draw_line` (Bresenham rasterization with check-before-write). -/
def draw_line (canvas : List (List Char)) (x1 y1 x2 y2 : ℤ) (c : Char)
    (width height : ℤ) : List (List Char) :=
  let dx := |x2 - x1|
  let dy := |y2 - y1|
  let sx : ℤ := if x1 < x2 then 1 else -1
  let sy : ℤ := if y1 < y2 then 1 else -1
  if dx > dy then
    drawLoopX c width height sx sy dx dy dx.toNat canvas x1 y1 ((dx : ℚ) / 2)
  else
    drawLoopY c width height sx sy dx dy dy.toNat canvas x1 y1 ((dy : ℚ) / 2)

/-! ## Rolling metrics store: bandwidth (`BandwidthMonitor`) -/

/-- The counters `get_interface_stats` reads from the OS for one sample. -/
structure NetStats where
  bytes_sent : ℤ
  bytes_recv : ℤ
  packets_sent : ℤ
  packets_recv : ℤ
  timestamp : ℚ
deriving DecidableEq

/-- The three parallel history lists kept per interface. -/
structure BWHist where
  upload : List ℚ
  download : List ℚ
  timestamps : List ℚ
deriving DecidableEq

/-- The dictionary returned by `calculate_bandwidth`; keys that are absent
in some return sites are modelled as `Option` fields. -/
structure BWResult where
  upload_bps : ℚ
  download_bps : ℚ
  error : Option String
  upload_history : Option (List ℚ)
  download_history : Option (List ℚ)
  interface : Option String
deriving DecidableEq

/-- The mutable state of a `BandwidthMonitor` instance
(`max_history_points` is the constant 50). -/
structure BWState where
  previous_stats : String → Option NetStats
  bandwidth_history : String → Option BWHist
  psutil_available : Bool

/-- A fresh `BandwidthMonitor` (psutil importable). -/
def initBWState : BWState :=
  { previous_stats := fun _ => none,
    bandwidth_history := fun _ => none,
    psutil_available := true }

/-- Point update of a string-keyed dictionary. -/
def updFn {β : Type} (f : String → β) (k : String) (v : β) : String → β :=
  fun k' => if k' = k then v else f k'

/-- Models Python `l[-n:]` for `n > 0`: the last `min n (length l)`
elements.  (`List.rtake l n` is by definition `l.drop (l.length - n)`.) -/
def pyLastN {α : Type} (n : ℕ) (l : List α) : List α := List.rtake l n

/-- Trimming step of `calculate_bandwidth`: after appending, if the history
exceeds `max_history_points = 50`, keep only the last 50 of each list. -/
def bwTrim (h : BWHist) : BWHist :=
  if 50 < h.upload.length then
    { upload := pyLastN 50 h.upload,
      download := pyLastN 50 h.download,
      timestamps := pyLastN 50 h.timestamps }
  else h

/-- Embeds `BandwidthMonitor.calculate_bandwidth`.  `currentStats` is the
result of `get_interface_stats` (`none` models the empty dictionary the
Python helper returns on failure).  Returns the result dictionary and the
updated monitor state. -/
def calculate_bandwidth (st : BWState) (iface : String)
    (currentStats : Option NetStats) : BWResult × BWState :=
  if st.psutil_available = false then
    ({ upload_bps := 0, download_bps := 0, error := some "psutil not available",
       upload_history := none, download_history := none, interface := none }, st)
  else
    match currentStats with
    | none =>
        ({ upload_bps := 0, download_bps := 0, error := some "No interface stats",
           upload_history := none, download_history := none, interface := none }, st)
    | some cur =>
        match st.previous_stats iface with
        | some prev =>
            let time_diff := cur.timestamp - prev.timestamp
            if 0 < time_diff then
              let upload_bps := ((cur.bytes_sent - prev.bytes_sent : ℤ) : ℚ) / time_diff
              let download_bps := ((cur.bytes_recv - prev.bytes_recv : ℤ) : ℚ) / time_diff
              let st := { st with previous_stats := updFn st.previous_stats iface (some cur) }
              let hist := (st.bandwidth_history iface).getD ⟨[], [], []⟩
              let hist := bwTrim
                { upload := hist.upload ++ [max 0 upload_bps],
                  download := hist.download ++ [max 0 download_bps],
                  timestamps := hist.timestamps ++ [cur.timestamp] }
              let st := { st with bandwidth_history := updFn st.bandwidth_history iface (some hist) }
              ({ upload_bps := upload_bps, download_bps := download_bps,
                 error := none,
                 upload_history := some hist.upload,
                 download_history := some hist.download,
                 interface := some iface }, st)
            else
              ({ upload_bps := 0, download_bps := 0, error := none,
                 upload_history := none, download_history := none,
                 interface := some iface },
               { st with previous_stats := updFn st.previous_stats iface (some cur) })
        | none =>
            ({ upload_bps := 0, download_bps := 0, error := none,
               upload_history := none, download_history := none,
               interface := some iface },
             { st with previous_stats := updFn st.previous_stats iface (some cur) })

/-- Runs a sequence of `calculate_bandwidth` calls (interface name paired
with the OS counter reading for that call) from a fresh monitor. -/
def runBW (calls : List (String × Option NetStats)) : BWState :=
  calls.foldl (fun st c => (calculate_bandwidth st c.1 c.2).2) initBWState

/-! ## Rolling metrics store: ping (`PingMonitor`) -/

/-- One record of a hostname's ping history (the `ping_data` dictionary). -/
structure PingData where
  hostname : String
  timestamp : ℚ
  success : Bool
  latencies : List ℚ
  packet_loss : ℕ
  avg_latency : Option ℚ
  min_latency : Option ℚ
  max_latency : Option ℚ
  raw_output : String
deriving DecidableEq

/-- How one `subprocess.run` invocation inside `ping_host_with_stats`
ends.  The regular-expression extraction from the external command's text
output is modelled by carrying the parsed values (`parsedLatencies` from
the latency regex, `parsedLoss` from the packet-loss regex) in the
outcome; they are read only on the `returncode = 0` path, exactly as in
the source. -/
inductive CallOutcome where
  | completed (returncode : ℤ) (output : String) (parsedLatencies : List ℚ)
      (parsedLoss : Option ℕ)
  | timedOut
  | errored (msg : String)
deriving DecidableEq

/-- Whether an outcome is the generic `except Exception` path. -/
def CallOutcome.isErrored : CallOutcome → Bool
  | .errored _ => true
  | _ => false

/-- Embeds `PingMonitor.ping_host_with_stats` as a transition on the
`ping_history` dictionary (`ts` models `time.time()` at the call).  The
completed path appends its record and then trims the history to the last
`max_history_points = 100`; the timeout path appends without trimming;
the generic error path returns a record without storing it. -/
def pingHostWithStats (hist : String → List PingData) (hostname : String)
    (ts : ℚ) (o : CallOutcome) : PingData × (String → List PingData) :=
  match o with
  | .completed rc output lats loss =>
      let pd : PingData :=
        if rc = 0 then
          { hostname := hostname, timestamp := ts, success := true,
            latencies := if lats ≠ [] then lats else [],
            packet_loss := loss.getD 0,
            avg_latency := if lats ≠ [] then some (lats.sum / (lats.length : ℚ)) else none,
            min_latency := if lats ≠ [] then lats.min? else none,
            max_latency := if lats ≠ [] then lats.max? else none,
            raw_output := output }
        else
          { hostname := hostname, timestamp := ts, success := false,
            latencies := [], packet_loss := 0, avg_latency := none,
            min_latency := none, max_latency := none, raw_output := output }
      let h := hist hostname ++ [pd]
      let h := if 100 < h.length then pyLastN 100 h else h
      (pd, updFn hist hostname h)
  | .timedOut =>
      let pd : PingData :=
        { hostname := hostname, timestamp := ts, success := false,
          latencies := [], packet_loss := 100, avg_latency := none,
          min_latency := none, max_latency := none,
          raw_output := "Ping timed out" }
      (pd, updFn hist hostname (hist hostname ++ [pd]))
  | .errored msg =>
      let pd : PingData :=
        { hostname := hostname, timestamp := ts, success := false,
          latencies := [], packet_loss := 100, avg_latency := none,
          min_latency := none, max_latency := none,
          raw_output := msg }
      (pd, hist)

/-- Runs a sequence of `ping_host_with_stats` calls for one hostname from
a fresh `PingMonitor`. -/
def runPingCalls (hostname : String) (calls : List (ℚ × CallOutcome)) :
    String → List PingData :=
  calls.foldl (fun h c => (pingHostWithStats h hostname c.1 c.2).2) (fun _ => [])

/-! ## Ping statistics: trend (`calculate_trend`, `get_ping_statistics`) -/

/-- Embeds `calculate_trend`: mean of the first half vs mean of the second
half (integer halving of the length), relative change classified with a
±10 percent band; fewer than 3 values is `insufficient_data`. -/
def calculate_trend (values : List ℚ) : String :=
  if values.length < 3 then "insufficient_data"
  else
    let k := values.length / 2
    let first_half := (values.take k).sum / (k : ℚ)
    let second_half := (values.drop k).sum / ((values.length - k : ℕ) : ℚ)
    let diff_percent := if 0 < first_half then ((second_half - first_half) / first_half) * 100 else 0
    if 10 < diff_percent then "worsening"
    else if diff_percent < -10 then "improving"
    else "stable"

/-- The `successful_pings` filter of `get_ping_statistics`. -/
def successfulPings (history : List PingData) : List PingData :=
  history.filter (fun p => p.success && p.avg_latency.isSome)

/-- The `all_latencies` accumulation of `get_ping_statistics` (extend with
each successful record's latency list when it is non-empty). -/
def allLatencies (history : List PingData) : List ℚ :=
  (successfulPings history).foldl
    (fun acc p => if p.latencies.isEmpty then acc else acc ++ p.latencies) []

/-- The `recent_trend` entry of the statistics dictionary: present only
when `all_latencies` is non-empty; `calculate_trend` of the last at most
10 latencies when there are at least 5, `insufficient_data` otherwise. -/
def recentTrend (history : List PingData) : Option String :=
  let als := allLatencies history
  if als.isEmpty then none
  else some (if 5 ≤ als.length then calculate_trend (pyLastN 10 als)
             else "insufficient_data")

/-! ## Spec-side comparison definition for claim C6 -/

/-- Splits a character list at every dot (Python `s.split(".")`). -/
def splitOnDot : List Char → List (List Char)
  | [] => [[]]
  | c :: rest =>
      if c = '.' then [] :: splitOnDot rest
      else
        match splitOnDot rest with
        | [] => [[c]]
        | g :: gs => (c :: g) :: gs

/-- Reads a non-empty all-digit character group as a decimal number. -/
def decimalOctet? (cs : List Char) : Option ℕ :=
  if cs ≠ [] ∧ cs.all Char.isDigit then
    some (cs.foldl (fun n c => 10 * n + (c.toNat - 48)) 0)
  else none

/-- Parses an IPv4 dotted-quad string into its four octets. -/
def ipv4Octets? (s : String) : Option (ℕ × ℕ × ℕ × ℕ) :=
  match (splitOnDot s.toList).map decimalOctet? with
  | [some a, some b, some c, some d] =>
      if a ≤ 255 ∧ b ≤ 255 ∧ c ≤ 255 ∧ d ≤ 255 then some (a, b, c, d) else none
  | _ => none

/-- Follows the spec's words, for comparison with `geolocate_ip`: the
"private/link-local address ranges" of an IPv4 address are RFC1918
private space (10.0.0.0/8, 172.16.0.0/12, 192.168.0.0/16) and link-local
space (169.254.0.0/16). -/
def specPrivateOrLinkLocal (s : String) : Bool :=
  match ipv4Octets? s with
  | some (a, b, _, _) =>
      a = 10 || (a = 172 && (16 ≤ b && b ≤ 31)) || (a = 192 && b = 168)
        || (a = 169 && b = 254)
  | none => false

/-! ## Derived description of the bandwidth history contents -/

/-- The sequence of (floored upload rate, floored download rate, timestamp)
triples that `calculate_bandwidth` appends for interface `i` over a call
sequence, tracking the previously stored counters for `i`: a triple is
produced exactly when a previous sample exists and elapsed time is
positive, and every successful counter read replaces the stored previous
sample. -/
def ratesFor (i : String) : Option NetStats → List (String × Option NetStats) → List (ℚ × ℚ × ℚ)
  | _, [] => []
  | prev, (j, cs) :: rest =>
      if j = i then
        match cs with
        | none => ratesFor i prev rest
        | some cur =>
            match prev with
            | some p =>
                if 0 < cur.timestamp - p.timestamp then
                  (max 0 (((cur.bytes_sent - p.bytes_sent : ℤ) : ℚ) / (cur.timestamp - p.timestamp)),
                   max 0 (((cur.bytes_recv - p.bytes_recv : ℤ) : ℚ) / (cur.timestamp - p.timestamp)),
                   cur.timestamp) :: ratesFor i (some cur) rest
                else ratesFor i (some cur) rest
            | none => ratesFor i (some cur) rest
      else ratesFor i prev rest

/-- The history record an interface holds after its appended triples are
`rs`: absent while no triple was ever produced, otherwise the last 50
triples split into the three parallel lists. -/
def histOf (rs : List (ℚ × ℚ × ℚ)) : Option BWHist :=
  if rs = [] then none
  else some { upload := pyLastN 50 (rs.map (fun r => r.1)),
              download := pyLastN 50 (rs.map (fun r => r.2.1)),
              timestamps := pyLastN 50 (rs.map (fun r => r.2.2)) }

/-! # Theorems -/

/-! ## C7: the quality classifier -/

/-- C7: `get_connection_quality` is a total pure function with
`classify(None) = unknown` and, for every latency `L`, `excellent` iff
`L < 20`, `good` iff `20 ≤ L < 50`, `fair` iff `50 ≤ L < 100`, `poor` iff
`L ≥ 100`. -/
theorem C7_quality_classifier :
    get_connection_quality none = "unknown" ∧
    ∀ L : ℚ,
      ((get_connection_quality (some L) = "excellent") ↔ L < 20) ∧
      ((get_connection_quality (some L) = "good") ↔ 20 ≤ L ∧ L < 50) ∧
      ((get_connection_quality (some L) = "fair") ↔ 50 ≤ L ∧ L < 100) ∧
      ((get_connection_quality (some L) = "poor") ↔ 100 ≤ L) := by
  refine ⟨rfl, fun L => ?_⟩
  simp only [get_connection_quality]
  split_ifs with h1 h2 h3 <;>
    refine ⟨?_, ?_, ?_, ?_⟩ <;> constructor <;> intro hq <;>
    first
      | rfl
      | linarith
      | (exact absurd hq (by decide))
      | (constructor <;> linarith)

/-- Witness for C7 at `L = 10`. -/
theorem C7_quality_classifier_witness :
    (get_connection_quality (some 10) = "excellent") ↔ (10 : ℚ) < 20 :=
  (C7_quality_classifier.2 10).1

/-! ## C4: edge quality in the topology builder -/

/-- C4 counterexample: a probe that succeeds with latency exactly 0 gets
edge quality `"unknown"`, whereas the section-4.1 classifier yields
`"excellent"` for latency 0 — refuting the claim that an edge's quality
equals the classifier applied to every observed latency `L ≥ 0` and is
`"unknown"` exactly when no latency value is observed. -/
theorem C4_claim_false :
    (mkPeerConnection "self" ⟨"peer1", "", ["100.64.0.1:41641"], true⟩
        true (some 0)).quality = "unknown" ∧
    get_connection_quality (some 0) = "excellent" ∧
    ("unknown" : String) ≠ "excellent" := by
  refine ⟨rfl, rfl, by decide⟩

/-- C4 amended: for an online peer whose probe yields a nonzero latency
`L`, the constructed edge's quality is the section-4.1 classifier applied
to `L`; the quality is `"unknown"` when the probe yields no latency value
or when the latency is exactly 0 (the code guards with Python truthiness,
`if latency`).  Moreover each online probed peer contributes its keyed
edge to the connections map. -/
theorem C4_edge_quality_amended :
    (∀ (selfH : String) (p : Peer) (succ : Bool) (L : ℚ), L ≠ 0 →
        (mkPeerConnection selfH p succ (some L)).quality
          = get_connection_quality (some L)) ∧
    (∀ (selfH : String) (p : Peer) (succ : Bool),
        (mkPeerConnection selfH p succ none).quality = "unknown") ∧
    (∀ (selfH : String) (p : Peer) (succ : Bool),
        (mkPeerConnection selfH p succ (some 0)).quality = "unknown") ∧
    (∀ (selfH : String) (probes : List (Peer × Bool × Option ℚ))
        (x : Peer × Bool × Option ℚ), x ∈ probes → x.1.online = true →
        (selfH ++ "->" ++ x.1.hostName,
          mkPeerConnection selfH x.1 x.2.1 x.2.2) ∈ buildConnections selfH probes) := by
  refine ⟨?_, ?_, ?_, ?_⟩
  · intro selfH p succ L hL
    simp [mkPeerConnection, pyTruthyFloat, hL]
  · intro selfH p succ
    simp [mkPeerConnection, pyTruthyFloat]
  · intro selfH p succ
    simp [mkPeerConnection, pyTruthyFloat]
  · intro selfH probes x hx honl
    simp only [buildConnections, List.mem_filterMap]
    exact ⟨x, hx, by simp [honl]⟩

/-- Witness for C4 amended at latency 25 and a singleton probe list. -/
theorem C4_edge_quality_amended_witness :
    (25 : ℚ) ≠ 0 ∧
    (mkPeerConnection "self" ⟨"peer1", "", ["100.64.0.1:41641"], true⟩
        true (some 25)).quality = get_connection_quality (some 25) ∧
    (⟨"peer1", "", ["100.64.0.1:41641"], true⟩ : Peer).online = true ∧
    ("self" ++ "->" ++ "peer1",
      mkPeerConnection "self" ⟨"peer1", "", ["100.64.0.1:41641"], true⟩
        true (some 25))
      ∈ buildConnections "self" [(⟨"peer1", "", ["100.64.0.1:41641"], true⟩, true, some 25)] := by
  refine ⟨by decide, ?_, rfl, ?_⟩
  · exact C4_edge_quality_amended.1 "self" _ true 25 (by decide)
  · exact C4_edge_quality_amended.2.2.2 "self" _ _ (List.mem_singleton.mpr rfl) rfl

/-! ## C2: resolver priority in `get_peer_location` -/

/-- C2 counterexample: for a peer with relay `"nyc"` and hostname
`"london"`, the relay resolver sets `region = "North America"` (a
non-Unknown value), yet the final location's region is `"Unknown"` — the
hostname resolver replaced every field, refuting the claim that a later
resolver only overrides fields still at the Unknown sentinel. -/
theorem C2_claim_false :
    (parse_relay_location "nyc").region = "North America" ∧
    ("North America" : String) ≠ "Unknown" ∧
    (get_peer_location ⟨"london", "nyc", [], true⟩).region = "Unknown" := by
  refine ⟨by decide, by decide, by decide⟩

/-- C2 amended: the resolvers run in the fixed order relay → endpoint-IP →
hostname (the endpoint resolver only when no relay is present), but each
applied resolver returns a complete record and replaces all fields: the
final location is the hostname resolver's record whenever that record's
country is non-Unknown (overriding even non-Unknown fields set by earlier
resolvers), and otherwise the relay record, the first-endpoint
geolocation record, or the all-Unknown sentinel. -/
theorem C2_resolver_priority_amended :
    ∀ p : Peer,
      get_peer_location p =
        if (parse_hostname_location p.hostName).country ≠ "Unknown" then
          parse_hostname_location p.hostName
        else if p.relay ≠ "" then parse_relay_location p.relay
        else
          match p.endpoints with
          | [] => unknownLocation
          | fe :: _ =>
              if fe.toList.contains ':' then geolocate_ip (splitColonHead fe)
              else unknownLocation := by
  intro p
  rcases p with ⟨hn, r, eps, onl⟩
  by_cases hr : r = ""
  · cases eps with
    | nil => simp [get_peer_location, hr]
    | cons fe rest =>
        by_cases hc : fe.toList.contains ':' <;>
          simp [get_peer_location, hr, hc]
  · cases eps with
    | nil => simp [get_peer_location, hr]
    | cons fe rest => simp [get_peer_location, hr]

/-- Witness for C2 amended at a relay-only peer. -/
theorem C2_resolver_priority_amended_witness :
    get_peer_location ⟨"host-a", "fra", [], true⟩ =
      if (parse_hostname_location "host-a").country ≠ "Unknown" then
        parse_hostname_location "host-a"
      else if ("fra" : String) ≠ "" then parse_relay_location "fra"
      else unknownLocation :=
  C2_resolver_priority_amended ⟨"host-a", "fra", [], true⟩

/-! ## C10: the "la" hostname pattern -/

/-- C10: any hostname containing `"la"` case-insensitively but neither
`"nyc"` nor `"sf"` resolves through the hostname-pattern table to
Los Angeles / United States / US (only `"nyc"` and `"sf"` precede `"la"`
in the table), and since that record's country is non-Unknown it
determines these fields of the peer's final location, whatever the relay
and endpoint resolvers produced. -/
theorem C10_la_hostname_pattern :
    ∀ h : String,
      containsSub "la".toList (pyLower h.toList) = true →
      containsSub "nyc".toList (pyLower h.toList) = false →
      containsSub "sf".toList (pyLower h.toList) = false →
      (parse_hostname_location h).city = "Los Angeles" ∧
      (parse_hostname_location h).country = "United States" ∧
      (parse_hostname_location h).country_code = "US" ∧
      ∀ (relay : String) (endpoints : List String) (onl : Bool),
        (get_peer_location ⟨h, relay, endpoints, onl⟩).city = "Los Angeles" ∧
        (get_peer_location ⟨h, relay, endpoints, onl⟩).country = "United States" ∧
        (get_peer_location ⟨h, relay, endpoints, onl⟩).country_code = "US" := by
  intro h hla hnyc hsf
  have hloc : parse_hostname_location h =
      { unknownLocation with
        city := "Los Angeles", country := "United States", country_code := "US" } := by
    unfold parse_hostname_location hostnamePatterns
    simp only [List.find?, hnyc, hsf, hla]
    rfl
  refine ⟨by rw [hloc], by rw [hloc], by rw [hloc], ?_⟩
  intro relay endpoints onl
  have hfin : get_peer_location ⟨h, relay, endpoints, onl⟩ = parse_hostname_location h := by
    unfold get_peer_location
    rw [hloc]
    simp [unknownLocation]
  rw [hfin, hloc]
  exact ⟨rfl, rfl, rfl⟩

/-- Witness for C10 at hostname `"laptop"` with relay `"nyc"`. -/
theorem C10_la_hostname_pattern_witness :
    containsSub "la".toList (pyLower "laptop".toList) = true ∧
    containsSub "nyc".toList (pyLower "laptop".toList) = false ∧
    containsSub "sf".toList (pyLower "laptop".toList) = false ∧
    (parse_hostname_location "laptop").city = "Los Angeles" ∧
    (get_peer_location ⟨"laptop", "nyc", [], true⟩).city = "Los Angeles" ∧
    (get_peer_location ⟨"laptop", "nyc", [], true⟩).country = "United States" := by
  refine ⟨by decide, by decide, by decide, ?_, ?_, ?_⟩
  · exact (C10_la_hostname_pattern "laptop" (by decide) (by decide) (by decide)).1
  · exact ((C10_la_hostname_pattern "laptop" (by decide) (by decide) (by decide)).2.2.2
      "nyc" [] true).1
  · exact ((C10_la_hostname_pattern "laptop" (by decide) (by decide) (by decide)).2.2.2
      "nyc" [] true).2.1

/-! ## C6: the endpoint-IP resolver -/

/-- C6 counterexample: `"172.32.0.1"` is a public address (outside the
private 172.16.0.0/12 block and outside link-local space), yet
`geolocate_ip` classifies it as `country = "Private"`, `region = "Local"`
— refuting the claim that only private/link-local addresses are so
classified and that every public IP is left at the Unknown sentinels. -/
theorem C6_claim_false :
    specPrivateOrLinkLocal "172.32.0.1" = false ∧
    (geolocate_ip "172.32.0.1").country = "Private" ∧
    (geolocate_ip "172.32.0.1").region = "Local" ∧
    geolocate_ip "172.32.0.1" ≠ unknownLocation := by
  refine ⟨by decide, by decide, by decide, by decide⟩

/-- C6 amended: the endpoint-IP resolver runs only when the peer
advertises no relay identifier and inspects only the first endpoint; it
classifies exactly the addresses whose string starts with `"192.168."`,
`"10."` or `"172."` as `region = Local`, `country = Private` (a prefix
test that also catches public `172.x` addresses outside 172.16.0.0/12 and
misses link-local `169.254.x`), and leaves every other address at the
Unknown sentinels. -/
theorem C6_endpoint_resolver_amended :
    (∀ p : Peer, p.relay ≠ "" →
        get_peer_location p = get_peer_location { p with endpoints := [] }) ∧
    (∀ (p : Peer) (fe : String) (rest : List String),
        get_peer_location { p with endpoints := fe :: rest }
          = get_peer_location { p with endpoints := [fe] }) ∧
    (∀ ip : String,
        ("192.168.".toList.isPrefixOf ip.toList || "10.".toList.isPrefixOf ip.toList
            || "172.".toList.isPrefixOf ip.toList) = false →
        geolocate_ip ip = unknownLocation) ∧
    (∀ ip : String,
        ("192.168.".toList.isPrefixOf ip.toList || "10.".toList.isPrefixOf ip.toList
            || "172.".toList.isPrefixOf ip.toList) = true →
        geolocate_ip ip = localNetworkLocation) := by
  refine ⟨?_, ?_, ?_, ?_⟩
  · intro p hr
    rcases p with ⟨hn, r, eps, onl⟩
    cases eps with
    | nil => rfl
    | cons fe rest => simp [get_peer_location, hr]
  · intro p fe rest
    rfl
  · intro ip hip
    unfold geolocate_ip
    rw [hip]
    rfl
  · intro ip hip
    unfold geolocate_ip
    rw [hip]
    rfl

/-- Witness for C6 amended: a relayed peer ignores its endpoints, only
the first endpoint matters, and the two classification branches at
`"8.8.8.8"` (public, stays Unknown) and `"192.168.1.5"` (private). -/
theorem C6_endpoint_resolver_amended_witness :
    (⟨"host-b", "fra", ["192.168.1.5:41641"], true⟩ : Peer).relay ≠ "" ∧
    get_peer_location ⟨"host-b", "fra", ["192.168.1.5:41641"], true⟩
      = get_peer_location ⟨"host-b", "fra", [], true⟩ ∧
    get_peer_location ⟨"host-b", "", ["192.168.1.5:41641", "10.0.0.7:3"], true⟩
      = get_peer_location ⟨"host-b", "", ["192.168.1.5:41641"], true⟩ ∧
    ("192.168.".toList.isPrefixOf "8.8.8.8".toList
        || "10.".toList.isPrefixOf "8.8.8.8".toList
        || "172.".toList.isPrefixOf "8.8.8.8".toList) = false ∧
    geolocate_ip "8.8.8.8" = unknownLocation ∧
    geolocate_ip "192.168.1.5" = localNetworkLocation := by
  refine ⟨by decide, ?_, ?_, by decide, ?_, ?_⟩
  · exact C6_endpoint_resolver_amended.1 _ (by decide)
  · exact C6_endpoint_resolver_amended.2.1
      ⟨"host-b", "", ["192.168.1.5:41641"], true⟩ "192.168.1.5:41641" ["10.0.0.7:3"]
  · exact C6_endpoint_resolver_amended.2.2.1 "8.8.8.8" (by decide)
  · exact C6_endpoint_resolver_amended.2.2.2 "192.168.1.5" (by decide)

/-! ## C5: the ping-statistics trend -/

/-- With at least 3 values, `calculate_trend` returns one of the three
directional labels. -/
theorem calculate_trend_cases (values : List ℚ) (h : 3 ≤ values.length) :
    calculate_trend values = "worsening" ∨ calculate_trend values = "improving" ∨
      calculate_trend values = "stable" := by
  unfold calculate_trend
  have hlt : ¬ values.length < 3 := by omega
  simp only [hlt, if_false]
  split_ifs <;> simp

/-- A constant sequence of length at least 3 classifies as stable. -/
theorem calculate_trend_replicate (c : ℚ) (n : ℕ) (h : 3 ≤ n) :
    calculate_trend (List.replicate n c) = "stable" := by
  have hkn : n / 2 ≤ n := Nat.div_le_self n 2
  have hk0 : ((n / 2 : ℕ) : ℚ) ≠ 0 := Nat.cast_ne_zero.mpr (by omega)
  have hm0 : ((n - n / 2 : ℕ) : ℚ) ≠ 0 := Nat.cast_ne_zero.mpr (by omega)
  have hlt : ¬ (List.replicate n c).length < 3 := by simp; omega
  unfold calculate_trend
  rw [if_neg hlt]
  simp only [List.length_replicate, List.take_replicate, List.drop_replicate,
    List.sum_replicate, Nat.min_eq_left hkn, nsmul_eq_mul,
    mul_div_cancel_left₀ _ hk0, mul_div_cancel_left₀ _ hm0, sub_self,
    zero_div, zero_mul, ite_self]
  norm_num

/-- Length of the Python tail slice. -/
theorem length_pyLastN {α : Type} (n : ℕ) (l : List α) :
    (pyLastN n l).length = min n l.length := by
  simp [pyLastN, List.rtake]
  omega

/-- C5 counterexample: a history of 3 successful one-latency probes (so 3
successful latency points) reports `recent_trend = "insufficient_data"`
even though `calculate_trend` would classify those 3 points as
`"worsening"` — refuting the claim that with 3 or more points the
reported trend is one of worsening/improving/stable (the statistics code
gates the trend at 5 points, not 3); with 0 points no trend is reported
at all. -/
theorem C5_claim_false :
    recentTrend (runPingCalls "h"
        [((0 : ℚ), CallOutcome.completed 0 "pong" [10] (some 0)),
         ((1 : ℚ), CallOutcome.completed 0 "pong" [30] (some 0)),
         ((2 : ℚ), CallOutcome.completed 0 "pong" [30] (some 0))] "h")
      = some "insufficient_data" ∧
    calculate_trend [10, 30, 30] = "worsening" ∧
    recentTrend [] = none := by
  refine ⟨by decide, by norm_num [calculate_trend], by decide⟩

/-- C5 amended: `calculate_trend` compares the mean of the first half
against the mean of the second half and returns `insufficient_data` below
3 values and one of worsening/improving/stable otherwise (the claim's
concrete examples hold: `[10×5, 30×5]` worsens, its reverse improves, a
constant sequence is stable); but the trend reported by the statistics is
`calculate_trend` of the last at-most-10 successful latencies only when
there are at least 5 of them — with 1 to 4 points it reports
`insufficient_data` (and with 0 points no trend at all). -/
theorem C5_trend_amended :
    (∀ values : List ℚ, values.length < 3 →
        calculate_trend values = "insufficient_data") ∧
    (∀ values : List ℚ, 3 ≤ values.length →
        calculate_trend values = "worsening" ∨ calculate_trend values = "improving" ∨
          calculate_trend values = "stable") ∧
    calculate_trend [10, 10, 10, 10, 10, 30, 30, 30, 30, 30] = "worsening" ∧
    calculate_trend [30, 30, 30, 30, 30, 10, 10, 10, 10, 10] = "improving" ∧
    (∀ (c : ℚ) (n : ℕ), 3 ≤ n → calculate_trend (List.replicate n c) = "stable") ∧
    (∀ history : List PingData, allLatencies history = [] →
        recentTrend history = none) ∧
    (∀ history : List PingData, 1 ≤ (allLatencies history).length →
        (allLatencies history).length < 5 →
        recentTrend history = some "insufficient_data") ∧
    (∀ history : List PingData, 5 ≤ (allLatencies history).length →
        recentTrend history = some (calculate_trend (pyLastN 10 (allLatencies history))) ∧
        (recentTrend history = some "worsening" ∨
          recentTrend history = some "improving" ∨
          recentTrend history = some "stable")) := by
  refine ⟨?_, calculate_trend_cases, by norm_num [calculate_trend],
    by norm_num [calculate_trend], calculate_trend_replicate, ?_, ?_, ?_⟩
  · intro values hlen
    unfold calculate_trend
    rw [if_pos hlen]
  · intro history hnil
    unfold recentTrend
    simp [hnil]
  · intro history h1 h5
    have hne : ¬ ((allLatencies history).isEmpty = true) := by
      rw [List.isEmpty_iff_length_eq_zero]
      omega
    unfold recentTrend
    rw [if_neg hne, if_neg (by omega : ¬ 5 ≤ (allLatencies history).length)]
  · intro history h5
    have hne : ¬ ((allLatencies history).isEmpty = true) := by
      rw [List.isEmpty_iff_length_eq_zero]
      omega
    have heq : recentTrend history
        = some (calculate_trend (pyLastN 10 (allLatencies history))) := by
      unfold recentTrend
      rw [if_neg hne, if_pos h5]
    refine ⟨heq, ?_⟩
    have hlen : 3 ≤ (pyLastN 10 (allLatencies history)).length := by
      rw [length_pyLastN]
      omega
    rcases calculate_trend_cases _ hlen with hc | hc | hc <;>
      rw [heq, hc] <;> tauto

/-- Witness for C5 amended at a 1-element list, a 3-element list, a
constant 5-element list, and a 5-probe history. -/
theorem C5_trend_amended_witness :
    ([(50 : ℚ)].length < 3 ∧ calculate_trend [(50 : ℚ)] = "insufficient_data") ∧
    (3 ≤ ([10, 20, 30] : List ℚ).length ∧
      (calculate_trend [10, 20, 30] = "worsening" ∨
        calculate_trend [10, 20, 30] = "improving" ∨
        calculate_trend [10, 20, 30] = "stable")) ∧
    (3 ≤ 5 ∧ calculate_trend (List.replicate 5 (7 : ℚ)) = "stable") ∧
    (5 ≤ (allLatencies (List.replicate 5
        (⟨"h", 0, true, [(10 : ℚ)], 0, some 10, some 10, some 10, ""⟩ : PingData))).length ∧
      recentTrend (List.replicate 5
          (⟨"h", 0, true, [(10 : ℚ)], 0, some 10, some 10, some 10, ""⟩ : PingData))
        = some (calculate_trend (pyLastN 10 (allLatencies (List.replicate 5
            (⟨"h", 0, true, [(10 : ℚ)], 0, some 10, some 10, some 10, ""⟩ : PingData)))))) := by
  refine ⟨⟨by decide, ?_⟩, ⟨by decide, ?_⟩, ⟨by decide, ?_⟩, ⟨by decide, ?_⟩⟩
  · exact C5_trend_amended.1 [(50 : ℚ)] (by decide)
  · exact C5_trend_amended.2.1 [10, 20, 30] (by decide)
  · exact C5_trend_amended.2.2.2.2.1 (7 : ℚ) 5 (by decide)
  · exact (C5_trend_amended.2.2.2.2.2.2.2 (List.replicate 5
      (⟨"h", 0, true, [(10 : ℚ)], 0, some 10, some 10, some 10, ""⟩ : PingData))
      (by decide)).1

/-! ## C1: one record per ping call -/

/-- A completed or timed-out call grows the hostname's history by exactly
one record, as long as the history is still below the 100-record cap. -/
theorem pingHostWithStats_snd_length (hist : String → List PingData)
    (hostname : String) (ts : ℚ) (o : CallOutcome)
    (ho : o.isErrored = false) (hlen : (hist hostname).length < 100) :
    ((pingHostWithStats hist hostname ts o).2 hostname).length
      = (hist hostname).length + 1 := by
  cases o with
  | completed rc out lats loss =>
      have hnt : ¬ 100 < (hist hostname).length + 1 := by omega
      simp [pingHostWithStats, updFn, hnt]
  | timedOut => simp [pingHostWithStats, updFn]
  | errored msg => simp [CallOutcome.isErrored] at ho

/-- Running error-free call sequences from any starting history adds one
record per call while the cap is not reached. -/
theorem ping_run_length (hostname : String) :
    ∀ (calls : List (ℚ × CallOutcome)) (hist : String → List PingData),
      (∀ c ∈ calls, c.2.isErrored = false) →
      (hist hostname).length + calls.length ≤ 100 →
      ((calls.foldl (fun h c => (pingHostWithStats h hostname c.1 c.2).2) hist)
          hostname).length
        = (hist hostname).length + calls.length := by
  intro calls
  induction calls with
  | nil => intro hist _ _; simp
  | cons c rest ih =>
      intro hist hok hle
      simp only [List.foldl_cons, List.length_cons]
      have hc : c.2.isErrored = false := hok c (List.mem_cons_self c rest)
      have hstep := pingHostWithStats_snd_length hist hostname c.1 c.2 hc
        (by simp at hle; omega)
      rw [ih _ (fun x hx => hok x (List.mem_cons_of_mem c hx))
        (by rw [hstep]; simp at hle ⊢; omega), hstep]
      omega

set_option maxRecDepth 10000 in
/-- C1 counterexample: a single call ending in a generic (non-timeout)
error leaves the history with 0 records, not 1; and 101 successfully
completed calls leave 100 records, not 101 (the completed path trims to
the last 100) — refuting "exactly N entries after N calls regardless of
success/failure mix, including any other error". -/
theorem C1_claim_false :
    ((runPingCalls "h" [((0 : ℚ), CallOutcome.errored "Error: boom")]) "h").length
        = 0 ∧
    ((runPingCalls "h"
        (List.replicate 101 ((0 : ℚ), CallOutcome.completed 0 "pong" [] none)))
          "h").length = 100 ∧
    (List.replicate 101 ((0 : ℚ), CallOutcome.completed 0 "pong" [] none)).length
        = 101 := by
  refine ⟨by decide, by decide, by decide⟩

/-- C1 amended: every call that completes or times out appends exactly one
record, so after `N ≤ 100` calls none of which raise a non-timeout error
the hostname's history has exactly `N` entries (beyond 100, completed
calls trim the history to the most recent 100 while timed-out calls
append without trimming); a timed-out call records `success = false` and
`packet_loss = 100`, and a call that raises any other error appends
nothing. -/
theorem C1_ping_history_amended :
    (∀ (hostname : String) (calls : List (ℚ × CallOutcome)),
        (∀ c ∈ calls, c.2.isErrored = false) → calls.length ≤ 100 →
        ((runPingCalls hostname calls) hostname).length = calls.length) ∧
    (∀ (hist : String → List PingData) (hostname : String) (ts : ℚ),
        (pingHostWithStats hist hostname ts CallOutcome.timedOut).1.success = false ∧
        (pingHostWithStats hist hostname ts CallOutcome.timedOut).1.packet_loss = 100 ∧
        ((pingHostWithStats hist hostname ts CallOutcome.timedOut).2 hostname).length
          = (hist hostname).length + 1) ∧
    (∀ (hist : String → List PingData) (hostname : String) (ts : ℚ) (msg : String),
        (pingHostWithStats hist hostname ts (CallOutcome.errored msg)).2 = hist) := by
  refine ⟨?_, ?_, ?_⟩
  · intro hostname calls hok hlen
    have h := ping_run_length hostname calls (fun _ => []) hok (by simpa)
    simpa [runPingCalls] using h
  · intro hist hostname ts
    refine ⟨rfl, rfl, ?_⟩
    simp [pingHostWithStats, updFn]
  · intro hist hostname ts msg
    rfl

/-- Witness for C1 amended: a timeout followed by a completed call yields
exactly 2 history records, and the timeout record has the claimed fields. -/
theorem C1_ping_history_amended_witness :
    (∀ c ∈ [((0 : ℚ), CallOutcome.timedOut),
            ((1 : ℚ), CallOutcome.completed 0 "pong" [] none)],
        (c : ℚ × CallOutcome).2.isErrored = false) ∧
    ([((0 : ℚ), CallOutcome.timedOut),
      ((1 : ℚ), CallOutcome.completed 0 "pong" [] none)].length : ℕ) ≤ 100 ∧
    ((runPingCalls "h" [((0 : ℚ), CallOutcome.timedOut),
        ((1 : ℚ), CallOutcome.completed 0 "pong" [] none)]) "h").length = 2 ∧
    (pingHostWithStats (fun _ => []) "h" 0 CallOutcome.timedOut).1.success = false ∧
    (pingHostWithStats (fun _ => []) "h" 0 CallOutcome.timedOut).1.packet_loss = 100 := by
  refine ⟨by decide, by decide, ?_, ?_, ?_⟩
  · exact C1_ping_history_amended.1 "h" _ (by decide) (by decide)
  · exact (C1_ping_history_amended.2.1 (fun _ => []) "h" 0).1
  · exact (C1_ping_history_amended.2.1 (fun _ => []) "h" 0).2.1

/-! ## C8 and C3: bandwidth history lemmas -/

/-- A list already at most `n` long is its own Python tail slice. -/
theorem pyLastN_of_length_le {α : Type} (n : ℕ) (l : List α) (h : l.length ≤ n) :
    pyLastN n l = l := by
  simp [pyLastN, List.rtake, Nat.sub_eq_zero_of_le h]

/-- Nested tail slices collapse to the smaller one. -/
theorem rtake_rtake {α : Type} (l : List α) (m n : ℕ) (h : n ≤ m) :
    List.rtake (List.rtake l m) n = List.rtake l n := by
  simp only [List.rtake_eq_reverse_take_reverse, List.reverse_reverse,
    List.take_take, Nat.min_eq_left h]

/-- Taking the last 50 after appending to a last-50 slice is the same as
taking the last 50 of the full appended list. -/
theorem pyLastN_last_append {α : Type} (l : List α) (x : α) :
    pyLastN 50 (pyLastN 50 l ++ [x]) = pyLastN 50 (l ++ [x]) := by
  have h1 : pyLastN 50 (l ++ [x]) = List.rtake l 49 ++ [x] := by
    show List.rtake (l ++ [x]) (49 + 1) = _
    rw [List.rtake_concat_succ]
  have h2 : pyLastN 50 (pyLastN 50 l ++ [x]) = List.rtake (List.rtake l 50) 49 ++ [x] := by
    show List.rtake (List.rtake l 50 ++ [x]) (49 + 1) = _
    rw [List.rtake_concat_succ]
  rw [h1, h2, rtake_rtake l 50 49 (by omega)]

/-- One append-then-trim step on the three history lists advances the
last-50 description by one triple. -/
theorem bwTrim_step (rs : List (ℚ × ℚ × ℚ)) (u d t : ℚ) :
    bwTrim { upload := pyLastN 50 (rs.map (fun r => r.1)) ++ [u],
             download := pyLastN 50 (rs.map (fun r => r.2.1)) ++ [d],
             timestamps := pyLastN 50 (rs.map (fun r => r.2.2)) ++ [t] }
      = { upload := pyLastN 50 ((rs ++ [(u, d, t)]).map (fun r => r.1)),
          download := pyLastN 50 ((rs ++ [(u, d, t)]).map (fun r => r.2.1)),
          timestamps := pyLastN 50 ((rs ++ [(u, d, t)]).map (fun r => r.2.2)) } := by
  unfold bwTrim
  simp only [List.map_append, List.map_cons, List.map_nil]
  split_ifs with hc
  · simp only [BWHist.mk.injEq]
    exact ⟨pyLastN_last_append _ _, pyLastN_last_append _ _, pyLastN_last_append _ _⟩
  · have hlen := length_pyLastN 50 (rs.map (fun r => r.1))
    simp only [List.length_append, List.length_singleton, List.length_map] at hc hlen
    have hL : rs.length ≤ 49 := by omega
    simp only [BWHist.mk.injEq]
    refine ⟨?_, ?_, ?_⟩ <;>
      rw [pyLastN_of_length_le 50 _ (by simp; omega),
        pyLastN_of_length_le 50 _ (by simp; omega)]

/-- Characterization of the state after one `calculate_bandwidth` call
when psutil is available. -/
theorem calculate_bandwidth_snd (st : BWState) (iface : String)
    (cs : Option NetStats) (hp : st.psutil_available = true) :
    (calculate_bandwidth st iface cs).2 =
      match cs with
      | none => st
      | some cur =>
          match st.previous_stats iface with
          | some prev =>
              if 0 < cur.timestamp - prev.timestamp then
                { st with
                  previous_stats := updFn st.previous_stats iface (some cur),
                  bandwidth_history := updFn st.bandwidth_history iface (some (bwTrim
                    { upload := ((st.bandwidth_history iface).getD ⟨[], [], []⟩).upload
                        ++ [max 0 (((cur.bytes_sent - prev.bytes_sent : ℤ) : ℚ)
                              / (cur.timestamp - prev.timestamp))],
                      download := ((st.bandwidth_history iface).getD ⟨[], [], []⟩).download
                        ++ [max 0 (((cur.bytes_recv - prev.bytes_recv : ℤ) : ℚ)
                              / (cur.timestamp - prev.timestamp))],
                      timestamps := ((st.bandwidth_history iface).getD ⟨[], [], []⟩).timestamps
                        ++ [cur.timestamp] })) }
              else { st with previous_stats := updFn st.previous_stats iface (some cur) }
          | none => { st with previous_stats := updFn st.previous_stats iface (some cur) } := by
  cases cs with
  | none => simp [calculate_bandwidth, hp]
  | some cur =>
      cases hpv : st.previous_stats iface with
      | none => simp [calculate_bandwidth, hp, hpv]
      | some prev =>
          by_cases ht : 0 < cur.timestamp - prev.timestamp
          · simp [calculate_bandwidth, hp, hpv, ht]
          · simp [calculate_bandwidth, hp, hpv, ht]

/-- One call with no counter reading leaves the state unchanged. -/
theorem calc_bw_snd_skip (st : BWState) (iface : String)
    (hp : st.psutil_available = true) :
    (calculate_bandwidth st iface none).2 = st := by
  rw [calculate_bandwidth_snd st iface none hp]

/-- A first reading for an interface only stores the counters. -/
theorem calc_bw_snd_store (st : BWState) (iface : String) (cur : NetStats)
    (hp : st.psutil_available = true)
    (hpv : st.previous_stats iface = none) :
    (calculate_bandwidth st iface (some cur)).2
      = { st with previous_stats := updFn st.previous_stats iface (some cur) } := by
  rw [calculate_bandwidth_snd st iface (some cur) hp, hpv]

/-- A reading with non-positive elapsed time only replaces the stored
counters. -/
theorem calc_bw_snd_stale (st : BWState) (iface : String) (cur prev : NetStats)
    (hp : st.psutil_available = true)
    (hpv : st.previous_stats iface = some prev)
    (ht : ¬ 0 < cur.timestamp - prev.timestamp) :
    (calculate_bandwidth st iface (some cur)).2
      = { st with previous_stats := updFn st.previous_stats iface (some cur) } := by
  rw [calculate_bandwidth_snd st iface (some cur) hp, hpv]
  simp [ht]

/-- A rate-producing reading replaces the stored counters and appends the
floored rates to the (trimmed) history. -/
theorem calc_bw_snd_rate (st : BWState) (iface : String) (cur prev : NetStats)
    (hp : st.psutil_available = true)
    (hpv : st.previous_stats iface = some prev)
    (ht : 0 < cur.timestamp - prev.timestamp) :
    (calculate_bandwidth st iface (some cur)).2
      = { st with
          previous_stats := updFn st.previous_stats iface (some cur),
          bandwidth_history := updFn st.bandwidth_history iface (some (bwTrim
            { upload := ((st.bandwidth_history iface).getD ⟨[], [], []⟩).upload
                ++ [max 0 (((cur.bytes_sent - prev.bytes_sent : ℤ) : ℚ)
                      / (cur.timestamp - prev.timestamp))],
              download := ((st.bandwidth_history iface).getD ⟨[], [], []⟩).download
                ++ [max 0 (((cur.bytes_recv - prev.bytes_recv : ℤ) : ℚ)
                      / (cur.timestamp - prev.timestamp))],
              timestamps := ((st.bandwidth_history iface).getD ⟨[], [], []⟩).timestamps
                ++ [cur.timestamp] })) } := by
  rw [calculate_bandwidth_snd st iface (some cur) hp, hpv]
  simp [ht]

/-- The stored-or-empty history record described by `histOf`. -/
theorem histOf_getD (rs : List (ℚ × ℚ × ℚ)) :
    (histOf rs).getD ⟨[], [], []⟩
      = { upload := pyLastN 50 (rs.map (fun r => r.1)),
          download := pyLastN 50 (rs.map (fun r => r.2.1)),
          timestamps := pyLastN 50 (rs.map (fun r => r.2.2)) } := by
  unfold histOf
  split_ifs with hrs
  · subst hrs
    simp [pyLastN, List.rtake]
  · rfl

/-- `histOf` of a non-empty triple list is the stored record. -/
theorem histOf_append (rs : List (ℚ × ℚ × ℚ)) (u d t : ℚ) :
    histOf (rs ++ [(u, d, t)])
      = some { upload := pyLastN 50 ((rs ++ [(u, d, t)]).map (fun r => r.1)),
               download := pyLastN 50 ((rs ++ [(u, d, t)]).map (fun r => r.2.1)),
               timestamps := pyLastN 50 ((rs ++ [(u, d, t)]).map (fun r => r.2.2)) } := by
  unfold histOf
  rw [if_neg (by simp)]

/-- Folding the monitor over any call sequence keeps, per interface, the
history equal to the last-50 description of all triples appended so far. -/
theorem runBW_go (i : String) :
    ∀ (calls : List (String × Option NetStats)) (st : BWState)
      (rs : List (ℚ × ℚ × ℚ)),
      st.psutil_available = true →
      st.bandwidth_history i = histOf rs →
      ((calls.foldl (fun s c => (calculate_bandwidth s c.1 c.2).2) st).bandwidth_history i
          = histOf (rs ++ ratesFor i (st.previous_stats i) calls)) ∧
      (calls.foldl (fun s c => (calculate_bandwidth s c.1 c.2).2) st).psutil_available = true := by
  intro calls
  induction calls with
  | nil =>
      intro st rs hp hh
      simpa [ratesFor] using ⟨hh, hp⟩
  | cons c rest ih =>
      intro st rs hp hh
      rcases c with ⟨j, cs⟩
      simp only [List.foldl_cons]
      cases cs with
      | none =>
          rw [calc_bw_snd_skip st j hp]
          rcases ih st rs hp hh with ⟨h1, h2⟩
          refine ⟨?_, h2⟩
          rw [h1]
          by_cases hji : j = i
          · subst hji
            simp [ratesFor]
          · simp [ratesFor, hji]
      | some cur =>
          cases hpv : st.previous_stats j with
          | none =>
              rw [calc_bw_snd_store st j cur hp hpv]
              rcases ih { st with previous_stats := updFn st.previous_stats j (some cur) }
                rs hp hh with ⟨h1, h2⟩
              refine ⟨?_, h2⟩
              rw [h1]
              by_cases hji : j = i
              · subst hji
                simp [ratesFor, hpv, updFn]
              · have hij : ¬ i = j := fun hq => hji hq.symm
                simp [ratesFor, hji, hij, updFn]
          | some prev =>
              by_cases ht : 0 < cur.timestamp - prev.timestamp
              · rw [calc_bw_snd_rate st j cur prev hp hpv ht]
                by_cases hji : j = i
                · subst hji
                  have hmain :
                      updFn st.bandwidth_history j (some (bwTrim
                        { upload := ((st.bandwidth_history j).getD ⟨[], [], []⟩).upload
                            ++ [max 0 (((cur.bytes_sent - prev.bytes_sent : ℤ) : ℚ)
                                  / (cur.timestamp - prev.timestamp))],
                          download := ((st.bandwidth_history j).getD ⟨[], [], []⟩).download
                            ++ [max 0 (((cur.bytes_recv - prev.bytes_recv : ℤ) : ℚ)
                                  / (cur.timestamp - prev.timestamp))],
                          timestamps := ((st.bandwidth_history j).getD ⟨[], [], []⟩).timestamps
                            ++ [cur.timestamp] })) j
                        = histOf (rs
                            ++ [(max 0 (((cur.bytes_sent - prev.bytes_sent : ℤ) : ℚ)
                                  / (cur.timestamp - prev.timestamp)),
                                 max 0 (((cur.bytes_recv - prev.bytes_recv : ℤ) : ℚ)
                                  / (cur.timestamp - prev.timestamp)),
                                 cur.timestamp)]) := by
                    rw [hh, histOf_getD]
                    simp only [updFn, eq_self_iff_true, if_true]
                    rw [bwTrim_step, histOf_append]
                  rcases ih
                    { st with
                      previous_stats := updFn st.previous_stats j (some cur),
                      bandwidth_history := updFn st.bandwidth_history j (some (bwTrim
                        { upload := ((st.bandwidth_history j).getD ⟨[], [], []⟩).upload
                            ++ [max 0 (((cur.bytes_sent - prev.bytes_sent : ℤ) : ℚ)
                                  / (cur.timestamp - prev.timestamp))],
                          download := ((st.bandwidth_history j).getD ⟨[], [], []⟩).download
                            ++ [max 0 (((cur.bytes_recv - prev.bytes_recv : ℤ) : ℚ)
                                  / (cur.timestamp - prev.timestamp))],
                          timestamps := ((st.bandwidth_history j).getD ⟨[], [], []⟩).timestamps
                            ++ [cur.timestamp] })) }
                    (rs ++ [(max 0 (((cur.bytes_sent - prev.bytes_sent : ℤ) : ℚ)
                              / (cur.timestamp - prev.timestamp)),
                             max 0 (((cur.bytes_recv - prev.bytes_recv : ℤ) : ℚ)
                              / (cur.timestamp - prev.timestamp)),
                             cur.timestamp)]) hp hmain with ⟨h1, h2⟩
                  refine ⟨?_, h2⟩
                  rw [h1]
                  simp only [updFn, eq_self_iff_true, if_true]
                  rw [List.append_assoc]
                  have hrates : ratesFor j (st.previous_stats j) ((j, some cur) :: rest)
                      = (max 0 (((cur.bytes_sent - prev.bytes_sent : ℤ) : ℚ)
                            / (cur.timestamp - prev.timestamp)),
                         max 0 (((cur.bytes_recv - prev.bytes_recv : ℤ) : ℚ)
                            / (cur.timestamp - prev.timestamp)),
                         cur.timestamp) :: ratesFor j (some cur) rest := by
                    rw [hpv]
                    simp [ratesFor, ht]
                  rw [hrates]
                  rfl
                · have hij : ¬ i = j := fun hq => hji hq.symm
                  have hh' :
                      ({ st with
                         previous_stats := updFn st.previous_stats j (some cur),
                         bandwidth_history := updFn st.bandwidth_history j (some (bwTrim
                           { upload := ((st.bandwidth_history j).getD ⟨[], [], []⟩).upload
                               ++ [max 0 (((cur.bytes_sent - prev.bytes_sent : ℤ) : ℚ)
                                     / (cur.timestamp - prev.timestamp))],
                             download := ((st.bandwidth_history j).getD ⟨[], [], []⟩).download
                               ++ [max 0 (((cur.bytes_recv - prev.bytes_recv : ℤ) : ℚ)
                                     / (cur.timestamp - prev.timestamp))],
                             timestamps := ((st.bandwidth_history j).getD ⟨[], [], []⟩).timestamps
                               ++ [cur.timestamp] })) } : BWState).bandwidth_history i
                        = histOf rs := by
                    simpa [updFn, hij] using hh
                  rcases ih
                    { st with
                      previous_stats := updFn st.previous_stats j (some cur),
                      bandwidth_history := updFn st.bandwidth_history j (some (bwTrim
                        { upload := ((st.bandwidth_history j).getD ⟨[], [], []⟩).upload
                            ++ [max 0 (((cur.bytes_sent - prev.bytes_sent : ℤ) : ℚ)
                                  / (cur.timestamp - prev.timestamp))],
                          download := ((st.bandwidth_history j).getD ⟨[], [], []⟩).download
                            ++ [max 0 (((cur.bytes_recv - prev.bytes_recv : ℤ) : ℚ)
                                  / (cur.timestamp - prev.timestamp))],
                          timestamps := ((st.bandwidth_history j).getD ⟨[], [], []⟩).timestamps
                            ++ [cur.timestamp] })) }
                    rs hp hh' with ⟨h1, h2⟩
                  refine ⟨?_, h2⟩
                  rw [h1]
                  simp [ratesFor, hji, hij, updFn]
              · rw [calc_bw_snd_stale st j cur prev hp hpv ht]
                rcases ih { st with previous_stats := updFn st.previous_stats j (some cur) }
                  rs hp hh with ⟨h1, h2⟩
                refine ⟨?_, h2⟩
                rw [h1]
                by_cases hji : j = i
                · subst hji
                  simp [ratesFor, hpv, ht, updFn]
                · have hij : ¬ i = j := fun hq => hji hq.symm
                  simp [ratesFor, hji, hij, updFn]

/-- C8: for every interface and every call sequence from a fresh monitor,
the interface's history is exactly the last at-most-50 appended rate
triples in sample order (FIFO eviction), so the upload, download and
timestamp lists never exceed the 50-entry capacity and always have equal
lengths. -/
theorem C8_bandwidth_history_bounded_fifo :
    ∀ (calls : List (String × Option NetStats)) (i : String),
      (runBW calls).bandwidth_history i = histOf (ratesFor i none calls) ∧
      ∀ hs : BWHist, (runBW calls).bandwidth_history i = some hs →
        hs.upload.length ≤ 50 ∧ hs.download.length = hs.upload.length ∧
          hs.timestamps.length = hs.upload.length ∧
          hs.upload = pyLastN 50 ((ratesFor i none calls).map (fun r => r.1)) ∧
          hs.download = pyLastN 50 ((ratesFor i none calls).map (fun r => r.2.1)) ∧
          hs.timestamps = pyLastN 50 ((ratesFor i none calls).map (fun r => r.2.2)) := by
  intro calls i
  have hgo := runBW_go i calls initBWState [] rfl (by rfl)
  have h1 : (runBW calls).bandwidth_history i = histOf (ratesFor i none calls) := by
    have h := hgo.1
    simpa [runBW, initBWState] using h
  refine ⟨h1, ?_⟩
  intro hs hsome
  rw [h1] at hsome
  unfold histOf at hsome
  split_ifs at hsome with hrs
  injection hsome with hinj
  subst hinj
  refine ⟨?_, ?_, ?_, rfl, rfl, rfl⟩ <;>
    simp only [length_pyLastN, List.length_map] <;> omega

/-- Witness for C8 at a two-reading run producing one rate triple. -/
theorem C8_bandwidth_history_bounded_fifo_witness :
    (runBW [("ts0", some ⟨0, 0, 0, 0, 0⟩),
            ("ts0", some ⟨100, 200, 0, 0, 1⟩)]).bandwidth_history "ts0"
        = some ⟨[100], [200], [1]⟩ ∧
    ((⟨[100], [200], [1]⟩ : BWHist).upload.length ≤ 50 ∧
      (⟨[100], [200], [1]⟩ : BWHist).download.length
        = (⟨[100], [200], [1]⟩ : BWHist).upload.length) := by
  have h := C8_bandwidth_history_bounded_fifo
    [("ts0", some ⟨0, 0, 0, 0, 0⟩), ("ts0", some ⟨100, 200, 0, 0, 1⟩)] "ts0"
  have hrs : histOf (ratesFor "ts0" none
      [("ts0", some ⟨0, 0, 0, 0, 0⟩), ("ts0", some ⟨100, 200, 0, 0, 1⟩)])
      = some ⟨[100], [200], [1]⟩ := by
    norm_num [ratesFor, histOf, pyLastN, List.rtake]
  have heq : (runBW [("ts0", some ⟨0, 0, 0, 0, 0⟩),
      ("ts0", some ⟨100, 200, 0, 0, 1⟩)]).bandwidth_history "ts0"
      = some ⟨[100], [200], [1]⟩ := by
    rw [h.1, hrs]
  exact ⟨heq, (h.2 _ heq).1, (h.2 _ heq).2.1⟩

/-! ## C3: returned rates vs history rates -/

/-- Characterization of the result dictionary of a rate-producing call:
the returned `upload_bps`/`download_bps` are the raw signed rates, while
the history (also returned) stores the floored rates. -/
theorem calculate_bandwidth_fst_rate (st : BWState) (iface : String)
    (cur prev : NetStats)
    (hp : st.psutil_available = true)
    (hpv : st.previous_stats iface = some prev)
    (ht : 0 < cur.timestamp - prev.timestamp) :
    (calculate_bandwidth st iface (some cur)).1
      = { upload_bps := ((cur.bytes_sent - prev.bytes_sent : ℤ) : ℚ)
            / (cur.timestamp - prev.timestamp),
          download_bps := ((cur.bytes_recv - prev.bytes_recv : ℤ) : ℚ)
            / (cur.timestamp - prev.timestamp),
          error := none,
          upload_history := some (bwTrim
            { upload := ((st.bandwidth_history iface).getD ⟨[], [], []⟩).upload
                ++ [max 0 (((cur.bytes_sent - prev.bytes_sent : ℤ) : ℚ)
                      / (cur.timestamp - prev.timestamp))],
              download := ((st.bandwidth_history iface).getD ⟨[], [], []⟩).download
                ++ [max 0 (((cur.bytes_recv - prev.bytes_recv : ℤ) : ℚ)
                      / (cur.timestamp - prev.timestamp))],
              timestamps := ((st.bandwidth_history iface).getD ⟨[], [], []⟩).timestamps
                ++ [cur.timestamp] }).upload,
          download_history := some (bwTrim
            { upload := ((st.bandwidth_history iface).getD ⟨[], [], []⟩).upload
                ++ [max 0 (((cur.bytes_sent - prev.bytes_sent : ℤ) : ℚ)
                      / (cur.timestamp - prev.timestamp))],
              download := ((st.bandwidth_history iface).getD ⟨[], [], []⟩).download
                ++ [max 0 (((cur.bytes_recv - prev.bytes_recv : ℤ) : ℚ)
                      / (cur.timestamp - prev.timestamp))],
              timestamps := ((st.bandwidth_history iface).getD ⟨[], [], []⟩).timestamps
                ++ [cur.timestamp] }).download,
          interface := some iface } := by
  simp [calculate_bandwidth, hp, hpv, ht]

/-- An append-then-trim step keeps the appended element last in the
upload and download lists. -/
theorem bwTrim_last (h : BWHist) (x y z : ℚ) :
    (∃ pre, (bwTrim ⟨h.upload ++ [x], h.download ++ [y], h.timestamps ++ [z]⟩).upload
        = pre ++ [x]) ∧
    (∃ pre, (bwTrim ⟨h.upload ++ [x], h.download ++ [y], h.timestamps ++ [z]⟩).download
        = pre ++ [y]) := by
  unfold bwTrim
  split_ifs with hc
  · constructor
    · refine ⟨List.rtake h.upload 49, ?_⟩
      show List.rtake (h.upload ++ [x]) (49 + 1) = _
      rw [List.rtake_concat_succ]
    · refine ⟨List.rtake h.download 49, ?_⟩
      show List.rtake (h.download ++ [y]) (49 + 1) = _
      rw [List.rtake_concat_succ]
  · exact ⟨⟨h.upload, rfl⟩, ⟨h.download, rfl⟩⟩

/-- C3 counterexample: with a stored sample of 100 sent bytes at time 0
and a current sample of 50 sent bytes at time 1 (a counter decrease), the
call returns `upload_bps = -50`, a negative value — refuting the claim
that the returned `upload_bps`/`download_bps` are floored at zero. -/
theorem C3_claim_false :
    (calculate_bandwidth
        ((calculate_bandwidth initBWState "ts0" (some ⟨100, 100, 0, 0, 0⟩)).2)
        "ts0" (some ⟨50, 300, 0, 0, 1⟩)).1.upload_bps = -50 ∧
    ¬ 0 ≤ (calculate_bandwidth
        ((calculate_bandwidth initBWState "ts0" (some ⟨100, 100, 0, 0, 0⟩)).2)
        "ts0" (some ⟨50, 300, 0, 0, 1⟩)).1.upload_bps := by
  have hstore := calc_bw_snd_store initBWState "ts0" ⟨100, 100, 0, 0, 0⟩ rfl rfl
  have hp : ((calculate_bandwidth initBWState "ts0"
      (some ⟨100, 100, 0, 0, 0⟩)).2).psutil_available = true := by
    rw [hstore]
    rfl
  have hpv : ((calculate_bandwidth initBWState "ts0"
      (some ⟨100, 100, 0, 0, 0⟩)).2).previous_stats "ts0"
      = some ⟨100, 100, 0, 0, 0⟩ := by
    rw [hstore]
    simp [updFn, initBWState]
  have ht : (0 : ℚ) < (⟨50, 300, 0, 0, 1⟩ : NetStats).timestamp
      - (⟨100, 100, 0, 0, 0⟩ : NetStats).timestamp := by
    norm_num
  rw [calculate_bandwidth_fst_rate _ "ts0" ⟨50, 300, 0, 0, 1⟩ ⟨100, 100, 0, 0, 0⟩ hp hpv ht]
  norm_num

/-- C3 amended: when a previous sample exists and elapsed time is
positive, the values appended to the history (and returned in the history
lists) are `max(0, (current - previous) / elapsed)` for both directions —
floored at zero, never negative — while the directly returned
`upload_bps` and `download_bps` are the raw signed rates
`(current - previous) / elapsed`, which can be negative when a counter
decreases. -/
theorem C3_bandwidth_rate_amended :
    ∀ (st : BWState) (iface : String) (cur prev : NetStats),
      st.psutil_available = true →
      st.previous_stats iface = some prev →
      0 < cur.timestamp - prev.timestamp →
      ((calculate_bandwidth st iface (some cur)).1.upload_bps
          = ((cur.bytes_sent - prev.bytes_sent : ℤ) : ℚ) / (cur.timestamp - prev.timestamp)) ∧
      ((calculate_bandwidth st iface (some cur)).1.download_bps
          = ((cur.bytes_recv - prev.bytes_recv : ℤ) : ℚ) / (cur.timestamp - prev.timestamp)) ∧
      ∃ hs : BWHist,
        (calculate_bandwidth st iface (some cur)).2.bandwidth_history iface = some hs ∧
        (calculate_bandwidth st iface (some cur)).1.upload_history = some hs.upload ∧
        (calculate_bandwidth st iface (some cur)).1.download_history = some hs.download ∧
        (∃ pre, hs.upload = pre ++ [max 0 (((cur.bytes_sent - prev.bytes_sent : ℤ) : ℚ)
            / (cur.timestamp - prev.timestamp))]) ∧
        (∃ pre, hs.download = pre ++ [max 0 (((cur.bytes_recv - prev.bytes_recv : ℤ) : ℚ)
            / (cur.timestamp - prev.timestamp))]) ∧
        (0 : ℚ) ≤ max 0 (((cur.bytes_sent - prev.bytes_sent : ℤ) : ℚ)
            / (cur.timestamp - prev.timestamp)) ∧
        (0 : ℚ) ≤ max 0 (((cur.bytes_recv - prev.bytes_recv : ℤ) : ℚ)
            / (cur.timestamp - prev.timestamp)) := by
  intro st iface cur prev hp hpv ht
  rw [calculate_bandwidth_fst_rate st iface cur prev hp hpv ht,
    calc_bw_snd_rate st iface cur prev hp hpv ht]
  refine ⟨rfl, rfl, ?_⟩
  refine ⟨_, by simp [updFn], rfl, rfl, ?_, ?_, le_max_left _ _, le_max_left _ _⟩
  · exact (bwTrim_last ((st.bandwidth_history iface).getD ⟨[], [], []⟩) _ _ _).1
  · exact (bwTrim_last ((st.bandwidth_history iface).getD ⟨[], [], []⟩) _ _ _).2

/-- Witness for C3 amended at a concrete increasing-counter pair. -/
theorem C3_bandwidth_rate_amended_witness :
    ((calculate_bandwidth initBWState "ts0"
        (some ⟨100, 100, 0, 0, 0⟩)).2).psutil_available = true ∧
    ((calculate_bandwidth initBWState "ts0"
        (some ⟨100, 100, 0, 0, 0⟩)).2).previous_stats "ts0"
        = some ⟨100, 100, 0, 0, 0⟩ ∧
    (0 : ℚ) < (⟨150, 400, 0, 0, 1⟩ : NetStats).timestamp
        - (⟨100, 100, 0, 0, 0⟩ : NetStats).timestamp ∧
    (calculate_bandwidth
        ((calculate_bandwidth initBWState "ts0" (some ⟨100, 100, 0, 0, 0⟩)).2)
        "ts0" (some ⟨150, 400, 0, 0, 1⟩)).1.upload_bps
      = (((⟨150, 400, 0, 0, 1⟩ : NetStats).bytes_sent
            - (⟨100, 100, 0, 0, 0⟩ : NetStats).bytes_sent : ℤ) : ℚ)
        / ((⟨150, 400, 0, 0, 1⟩ : NetStats).timestamp
            - (⟨100, 100, 0, 0, 0⟩ : NetStats).timestamp) := by
  have hstore := calc_bw_snd_store initBWState "ts0" ⟨100, 100, 0, 0, 0⟩ rfl rfl
  have hp : ((calculate_bandwidth initBWState "ts0"
      (some ⟨100, 100, 0, 0, 0⟩)).2).psutil_available = true := by
    rw [hstore]
    rfl
  have hpv : ((calculate_bandwidth initBWState "ts0"
      (some ⟨100, 100, 0, 0, 0⟩)).2).previous_stats "ts0"
      = some ⟨100, 100, 0, 0, 0⟩ := by
    rw [hstore]
    simp [updFn, initBWState]
  have ht : (0 : ℚ) < (⟨150, 400, 0, 0, 1⟩ : NetStats).timestamp
      - (⟨100, 100, 0, 0, 0⟩ : NetStats).timestamp := by
    norm_num
  exact ⟨hp, hpv, ht,
    (C3_bandwidth_rate_amended _ "ts0" ⟨150, 400, 0, 0, 1⟩ ⟨100, 100, 0, 0, 0⟩ hp hpv ht).1⟩

/-! ## C9: check-before-write line rasterization -/

/-- Setting one list position leaves every other position unchanged. -/
theorem getD_set_ne {α : Type} (l : List α) (i j : ℕ) (a d : α) (h : i ≠ j) :
    (l.set i a).getD j d = l.getD j d := by
  simp [List.getD_eq_getElem?_getD, List.getElem?_set_ne h]

/-- One guarded cell write never changes a cell that held a non-space
character. -/
theorem tryDrawCell_preserves (canvas : List (List Char)) (x y : ℤ) (c : Char)
    (w h : ℤ) (r k : ℕ)
    (hrk : (canvas.getD r []).getD k ' ' ≠ ' ') :
    ((tryDrawCell canvas x y c w h).getD r []).getD k ' '
      = (canvas.getD r []).getD k ' ' := by
  unfold tryDrawCell
  split_ifs with hcond
  · rcases hcond with ⟨hx0, hxw, hy0, hyh, hsp⟩
    by_cases hr : r = y.toNat
    · by_cases hk : k = x.toNat
      · rw [hr, hk] at hrk
        exact absurd hsp hrk
      · by_cases hlen : y.toNat < canvas.length
        · have hrow : (canvas.set y.toNat ((canvas.getD y.toNat []).set x.toNat c)).getD y.toNat []
              = (canvas.getD y.toNat []).set x.toNat c := by
            rw [List.getD_eq_getElem?_getD, List.getElem?_set_self hlen]
            rfl
          rw [hr, hrow, getD_set_ne _ _ _ _ _ (fun hq => hk hq.symm)]
        · rw [List.set_eq_of_length_le (by omega)]
    · have hy : y.toNat ≠ r := fun hq => hr hq.symm
      rw [getD_set_ne canvas y.toNat r _ [] hy]
  · rfl

/-- The horizontal Bresenham loop preserves every non-space cell. -/
theorem drawLoopX_preserves (c : Char) (w h sx sy dx dy : ℤ) :
    ∀ (n : ℕ) (canvas : List (List Char)) (x y : ℤ) (err : ℚ) (r k : ℕ),
      (canvas.getD r []).getD k ' ' ≠ ' ' →
      ((drawLoopX c w h sx sy dx dy n canvas x y err).getD r []).getD k ' '
        = (canvas.getD r []).getD k ' ' := by
  intro n
  induction n with
  | zero =>
      intro canvas x y err r k hrk
      rfl
  | succ m ih =>
      intro canvas x y err r k hrk
      have hstep := tryDrawCell_preserves canvas x y c w h r k hrk
      have hrk' : ((tryDrawCell canvas x y c w h).getD r []).getD k ' ' ≠ ' ' := by
        rw [hstep]
        exact hrk
      simp only [drawLoopX]
      rw [ih _ _ _ _ r k hrk', hstep]

/-- The vertical Bresenham loop preserves every non-space cell. -/
theorem drawLoopY_preserves (c : Char) (w h sx sy dx dy : ℤ) :
    ∀ (n : ℕ) (canvas : List (List Char)) (x y : ℤ) (err : ℚ) (r k : ℕ),
      (canvas.getD r []).getD k ' ' ≠ ' ' →
      ((drawLoopY c w h sx sy dx dy n canvas x y err).getD r []).getD k ' '
        = (canvas.getD r []).getD k ' ' := by
  intro n
  induction n with
  | zero =>
      intro canvas x y err r k hrk
      rfl
  | succ m ih =>
      intro canvas x y err r k hrk
      have hstep := tryDrawCell_preserves canvas x y c w h r k hrk
      have hrk' : ((tryDrawCell canvas x y c w h).getD r []).getD k ' ' ≠ ' ' := by
        rw [hstep]
        exact hrk
      simp only [drawLoopY]
      rw [ih _ _ _ _ r k hrk', hstep]

/-- C9: `draw_line` never overwrites a non-space cell — for every canvas,
every pair of endpoints and every cell holding a character other than the
space character before the call, the cell holds the same character after
the call (line glyphs are written only into cells that contained a
space). -/
theorem C9_draw_line_preserves_nonspace :
    ∀ (canvas : List (List Char)) (x1 y1 x2 y2 : ℤ) (c : Char) (w h : ℤ)
      (r k : ℕ),
      (canvas.getD r []).getD k ' ' ≠ ' ' →
      ((draw_line canvas x1 y1 x2 y2 c w h).getD r []).getD k ' '
        = (canvas.getD r []).getD k ' ' := by
  intro canvas x1 y1 x2 y2 c w h r k hrk
  simp only [draw_line]
  split_ifs <;>
    first
      | exact drawLoopX_preserves c w h _ _ _ _ _ canvas x1 y1 _ r k hrk
      | exact drawLoopY_preserves c w h _ _ _ _ _ canvas x1 y1 _ r k hrk

/-- Witness for C9: drawing a diagonal on a 2×2 canvas whose top-left
cell holds a node glyph leaves that cell unchanged. -/
theorem C9_draw_line_preserves_nonspace_witness :
    (([['A', ' '], [' ', ' ']].getD 0 []).getD 0 ' ' ≠ ' ') ∧
    ((draw_line [['A', ' '], [' ', ' ']] 0 0 1 1 '=' 2 2).getD 0 []).getD 0 ' '
      = ([['A', ' '], [' ', ' ']].getD 0 []).getD 0 ' ' := by
  refine ⟨by decide, ?_⟩
  exact C9_draw_line_preserves_nonspace [['A', ' '], [' ', ' ']] 0 0 1 1 '=' 2 2 0 0
    (by decide)

end TsBackend
